import Mathlib

/-!
# Verification of the Monzo transaction reporting pipeline

A shallow embedding of `src/app/monzo_transactions.py`: the transaction
fetcher, the categorizer, and the grid (report) builder of `save_to_excel`,
together with the orchestration decisions of `main`.  Monetary values are
modelled as exact rationals (the Python code divides integer minor units by
`100.0`); the Python `dict` keyed by formatted category names is modelled as
an association list whose key order is the fixed enumeration order; the
`KeyError` a missing bucket lookup would raise is modelled by `Option`.
-/

attribute [local semireducible] Rat.mul Rat.inv Rat.add Rat.sub

namespace Monzo

/-- A raw transaction from the API: `amount` in minor units (signed),
optional `description` and `category` fields. -/
structure Transaction where
  amount : Int
  description : Option String
  category : Option String
deriving DecidableEq

/-- An expense record stored in a bucket: truncated description and a
positive amount in major units. -/
structure Expense where
  description : String
  amount : ℚ
deriving DecidableEq

/-- One step of Python's `str.title()`: the accumulator carries the output
characters and whether the previous character was alphabetic (cased). -/
def pyTitleStep (acc : List Char × Bool) (c : Char) : List Char × Bool :=
  (acc.1 ++ [if acc.2 then c.toLower else c.toUpper], c.isAlpha)

/-- Python's `str.title()`: capitalize the first letter of each word,
lowercase the rest; a word starts after a non-alphabetic character. -/
def pyTitle (s : String) : String :=
  String.mk (s.data.foldl pyTitleStep ([], false)).1

/-- `category.replace('_', ' ').title()` from the source; the single
character replacement is done on the character list. -/
def formatCategory (s : String) : String :=
  pyTitle (String.mk (s.data.map (fun c => if c = '_' then ' ' else c)))

/-- The fixed category enumeration `all_categories` of the source. -/
def allCategoryKeys : List String :=
  ["eating_out", "groceries", "bills", "shopping", "entertainment",
   "transport", "uncategorized"]

/-- The categorized mapping: an association list from formatted category
name to its bucket, in fixed enumeration order. -/
abbrev Categories := List (String × List Expense)

/-- The initial mapping: one empty bucket per formatted category name. -/
def initCategories : Categories :=
  allCategoryKeys.map (fun c => (formatCategory c, []))

/-- `categories[category].append(e)`: append `e` to the bucket at `key`;
`none` models the `KeyError` raised when the key is absent. -/
def appendTo : Categories → String → Expense → Option Categories
  | [], _, _ => none
  | (k, v) :: rest, key, e =>
    if k = key then some ((k, v ++ [e]) :: rest)
    else (appendTo rest key e).map (fun r => (k, v) :: r)

/-- The expense built from an admitted debit: description defaulted to
`"No description"` and sliced to its first 18 characters (`[:18]`), amount
negated from `amount / 100`. -/
def mkExpense (t : Transaction) : Expense :=
  ⟨(t.description.getD "No description").take 18, -((t.amount : ℚ) / 100)⟩

/-- The body of the loop in `categorize_transactions`: compute the major
unit amount and the formatted category, and append an expense only when the
amount is negative. -/
def processTransaction (cats : Categories) (t : Transaction) :
    Option Categories :=
  if (t.amount : ℚ) / 100 < 0 then
    appendTo cats (formatCategory (t.category.getD "uncategorized"))
      (mkExpense t)
  else some cats

/-- The transaction loop; `none` propagates a bucket-lookup failure. -/
def processAll : Categories → List Transaction → Option Categories
  | cats, [] => some cats
  | cats, t :: ts =>
    (processTransaction cats t).bind (fun cats2 => processAll cats2 ts)

/-- `categorize_transactions` from the source. -/
def categorize_transactions (ts : List Transaction) : Option Categories :=
  processAll initCategories ts

/- ### Report builder (`save_to_excel`, grid construction part) -/

/-- A spreadsheet cell: the Python lists mix strings and raw numbers. -/
inductive Cell where
  | str : String → Cell
  | num : ℚ → Cell
deriving DecidableEq

/-- `f'£{x:.2f}'` for the non-negative multiples of 1/100 the program
formats: currency symbol, whole pounds, two pence digits. -/
def formatCurrency (q : ℚ) : String :=
  let pence : Int := (q * 100).floor
  let whole := pence / 100
  let frac := pence % 100
  "£" ++ toString whole ++ "." ++
    (if frac < 10 then "0" ++ toString frac else toString frac)

/-- Per-category data accumulated by the inner loop of `save_to_excel`:
`descriptions`, `amounts` and `total_for_category`. -/
structure CategoryColumn where
  descriptions : List String
  amounts : List Cell
  total : ℚ
deriving DecidableEq

/-- One iteration of the inner loop: push the description and the raw
amount, add to the running category total. -/
def colStep (acc : CategoryColumn) (e : Expense) : CategoryColumn :=
  ⟨acc.descriptions ++ [e.description], acc.amounts ++ [Cell.num e.amount],
   acc.total + e.amount⟩

/-- The per-category columns after the loop plus the appended subtotal
entry (`'∑ ' + category`, formatted total). -/
def buildColumn (name : String) (bucket : List Expense) : CategoryColumn :=
  let folded := bucket.foldl colStep ⟨[], [], 0⟩
  ⟨folded.descriptions ++ ["∑ " ++ name],
   folded.amounts ++ [Cell.str (formatCurrency folded.total)],
   folded.total⟩

/-- `all_data`: the per-category columns in category order. -/
def allData (cats : Categories) : List CategoryColumn :=
  cats.map (fun p => buildColumn p.1 p.2)

/-- `total_expenditure`: accumulated sum of the category totals. -/
def grandTotal (cats : Categories) : ℚ :=
  (allData cats).foldl (fun acc c => acc + c.total) 0

/-- `all_columns`: two header cells per category. -/
def allColumns (cats : Categories) : List String :=
  (cats.map (fun p => [p.1, "£ " ++ p.1])).flatten

/-- Data row `i` of the grid: for each category its description and amount
at index `i`, or empty cells past the end of that category. -/
def gridRow (cats : Categories) (i : Nat) : List Cell :=
  ((allData cats).map (fun cd =>
    [Cell.str (cd.descriptions.getD i ""),
     cd.amounts.getD i (Cell.str "")])).flatten

/-- The grand-total row: fixed label, formatted grand total, and empty
cells up to the column count (`[''] * (len(all_columns) - 2)`; Python's
list repetition with a negative count and Nat subtraction both clamp
at zero). -/
def totalRow (cats : Categories) : List Cell :=
  [Cell.str "Total Expenditure", Cell.str (formatCurrency (grandTotal cats))]
    ++ List.replicate ((allColumns cats).length - 2) (Cell.str "")

/-- The data grid written by `save_to_excel`: `max_rows` data rows then the
grand-total row.  `none` models the `ValueError` Python's `max` raises on an
empty sequence of categories. -/
def buildGrid (cats : Categories) : Option (List (List Cell)) :=
  (((allData cats).map (fun cd => cd.descriptions.length)).max?).map
    (fun m => (List.range m).map (gridRow cats) ++ [totalRow cats])

/- ### Transaction source and orchestrator -/

/-- The HTTP response seen by `fetch_transactions`: a status code and the
optional `transactions` field of the JSON body. -/
structure HttpResponse where
  status : Nat
  transactions : Option (List Transaction)

/-- `fetch_transactions`: on a 200 response return `data.get
("transactions", [])`; on any other status log and return `[]`. -/
def fetch_transactions (resp : HttpResponse) : List Transaction :=
  if resp.status = 200 then resp.transactions.getD [] else []

/-- Terminal states of `main` after the fetch: the "No transactions found."
early stop, an uncaught failure (missing bucket or empty `max`), or a
written report. -/
inductive MainResult where
  | noTransactions
  | failure
  | report : Categories → List (List Cell) → MainResult
deriving DecidableEq

/-- The orchestration in `main` after fetching: empty list short-circuits
to the "no transactions" message; otherwise categorize and build the grid
that gets exported. -/
def runPipeline (ts : List Transaction) : MainResult :=
  if ts.isEmpty then MainResult.noTransactions
  else
    match categorize_transactions ts with
    | none => MainResult.failure
    | some m =>
      match buildGrid m with
      | none => MainResult.failure
      | some g => MainResult.report m g

/-- `main` from the fetch on, as a function of the HTTP response. -/
def mainRun (resp : HttpResponse) : MainResult :=
  runPipeline (fetch_transactions resp)

/-- Whether a terminal state wrote a spreadsheet artifact. -/
def writesSpreadsheet : MainResult → Bool
  | MainResult.report _ _ => true
  | _ => false

/- ### Spec-side quantities -/

/-- The sum of all Expense amounts across every bucket of a mapping. -/
def totalOf (cats : Categories) : ℚ :=
  (cats.map (fun p => (p.2.map Expense.amount).sum)).sum

/-- The sum of the absolute values of all negative `amount` fields of the
input, divided by 100. -/
def negTotal (ts : List Transaction) : ℚ :=
  ((ts.filter (fun t => decide (t.amount < 0))).map
    (fun t => |(t.amount : ℚ)| / 100)).sum

/-- Maximum number of entries, subtotal row included, across categories. -/
def maxCategoryLength (cats : Categories) : Nat :=
  ((cats.map (fun p => p.2.length + 1)).max?).getD 0

/- ### Helper lemmas -/

lemma amountQ_neg_iff (a : Int) : (a : ℚ) / 100 < 0 ↔ a < 0 := by
  constructor
  · intro h
    by_contra hc
    have h0 : (0 : ℚ) ≤ (a : ℚ) / 100 :=
      div_nonneg (by exact_mod_cast not_lt.mp hc) (by norm_num)
    linarith
  · intro h
    exact div_neg_of_neg_of_pos (by exact_mod_cast h) (by norm_num)

lemma totalOf_cons (k : String) (v : List Expense) (rest : Categories) :
    totalOf ((k, v) :: rest) = (v.map Expense.amount).sum + totalOf rest := by
  simp [totalOf]

lemma appendTo_total (e : Expense) :
    ∀ (cats : Categories) (key : String) (m : Categories),
      appendTo cats key e = some m → totalOf m = totalOf cats + e.amount
  | [], key, m => by
    intro h
    simp [appendTo] at h
  | (k, v) :: rest, key, m => by
    intro h
    by_cases hk : k = key
    · simp only [appendTo, if_pos hk] at h
      cases h
      simp [totalOf_cons]
      ring
    · simp only [appendTo, if_neg hk, Option.map_eq_some'] at h
      obtain ⟨r, hr, rfl⟩ := h
      have ih := appendTo_total e rest key r hr
      simp [totalOf_cons, ih]
      ring

lemma processAll_total :
    ∀ (ts : List Transaction) (cats m : Categories),
      processAll cats ts = some m → totalOf m = totalOf cats + negTotal ts
  | [], cats, m => by
    intro h
    simp only [processAll, Option.some_inj] at h
    subst h
    simp [negTotal]
  | t :: ts, cats, m => by
    intro h
    simp only [processAll, Option.bind_eq_some] at h
    obtain ⟨cats2, hp, hrest⟩ := h
    have ih := processAll_total ts cats2 m hrest
    by_cases hneg : (t.amount : ℚ) / 100 < 0
    · have ha : t.amount < 0 := (amountQ_neg_iff t.amount).mp hneg
      rw [processTransaction, if_pos hneg] at hp
      have ht := appendTo_total (mkExpense t) cats _ cats2 hp
      have hm : (mkExpense t).amount = |(t.amount : ℚ)| / 100 := by
        have : (t.amount : ℚ) < 0 := by exact_mod_cast ha
        simp [mkExpense, abs_of_neg this, neg_div]
      have hn : negTotal (t :: ts) = |(t.amount : ℚ)| / 100 + negTotal ts := by
        simp [negTotal, List.filter_cons, ha]
      rw [ih, ht, hm, hn]
      ring
    · rw [processTransaction, if_neg hneg] at hp
      cases hp
      have ha : ¬ t.amount < 0 := fun hc => hneg ((amountQ_neg_iff t.amount).mpr hc)
      rw [ih]
      simp [negTotal, List.filter_cons, ha]

lemma processTransaction_nonneg (cats : Categories) (t : Transaction)
    (h : ¬ (t.amount : ℚ) / 100 < 0) : processTransaction cats t = some cats := by
  simp [processTransaction, h]

lemma processAll_filter :
    ∀ (ts : List Transaction) (cats : Categories),
      processAll cats ts
        = processAll cats (ts.filter (fun t => decide (t.amount < 0)))
  | [], cats => rfl
  | t :: ts, cats => by
    by_cases ha : t.amount < 0
    · have hf : (t :: ts).filter (fun t => decide (t.amount < 0))
          = t :: ts.filter (fun t => decide (t.amount < 0)) := by
        simp [List.filter_cons, ha]
      rw [hf]
      simp only [processAll]
      cases hp : processTransaction cats t with
      | none => rfl
      | some cats2 =>
        simp only [Option.some_bind]
        exact processAll_filter ts cats2
    · have hq : ¬ (t.amount : ℚ) / 100 < 0 :=
        fun hc => ha ((amountQ_neg_iff t.amount).mp hc)
      have hf : (t :: ts).filter (fun t => decide (t.amount < 0))
          = ts.filter (fun t => decide (t.amount < 0)) := by
        simp [List.filter_cons, ha]
      rw [hf]
      simp only [processAll, processTransaction_nonneg cats t hq,
        Option.some_bind]
      exact processAll_filter ts cats

lemma totalOf_init : totalOf initCategories = 0 := by
  simp [totalOf, initCategories, allCategoryKeys]

/- ### Claim theorems -/

/-- C1: for every input sequence of transactions, the sum of all Expense
amounts across every category bucket in the mapping returned by
`categorize_transactions` equals the sum of the absolute values of all
negative `amount` fields of the input, divided by 100. -/
theorem categorize_total_eq_negative_sum (ts : List Transaction)
    (m : Categories) (h : categorize_transactions ts = some m) :
    totalOf m = negTotal ts := by
  have ht := processAll_total ts initCategories m h
  rw [ht, totalOf_init, zero_add]

/-- Witness for C1 at a concrete input: two debits and one credit. -/
theorem categorize_total_eq_negative_sum_witness :
    totalOf ((categorize_transactions
        [⟨-500, some "Coffee Shop", some "eating_out"⟩,
         ⟨-725, some "Lunch", some "eating_out"⟩,
         ⟨1200, some "Salary", some "income"⟩]).getD [])
      = negTotal
        [⟨-500, some "Coffee Shop", some "eating_out"⟩,
         ⟨-725, some "Lunch", some "eating_out"⟩,
         ⟨1200, some "Salary", some "income"⟩] :=
  categorize_total_eq_negative_sum _ _ (by decide)

/-- C2: a debit whose formatted category matches no predefined bucket makes
the bucket lookup miss, so `categorize_transactions` fails (the modelled
`KeyError`) instead of completing. -/
theorem unknown_category_lookup_fails :
    categorize_transactions [⟨-500, some "Coffee", some "crypto"⟩] = none := by
  decide

/-- C3: transactions with non-negative amounts never contribute an Expense
entry to any bucket: the categorizer's output is unchanged when they are
removed from the input. -/
theorem categorize_ignores_nonnegative (ts : List Transaction) :
    categorize_transactions ts
      = categorize_transactions (ts.filter (fun t => decide (t.amount < 0))) :=
  processAll_filter ts initCategories

/-- C7: `fetch_transactions` returns the empty sequence on any non-200
status, and on a 200 status the `transactions` field of the body,
defaulting to empty when the field is absent. -/
theorem fetch_transactions_status_spec (resp : HttpResponse) :
    (resp.status ≠ 200 → fetch_transactions resp = []) ∧
    (resp.status = 200 →
      fetch_transactions resp = resp.transactions.getD []) := by
  constructor <;> intro h <;> simp [fetch_transactions, h]

/-- Witness for C7: a 404 response yields `[]`; a 200 response yields the
body's transaction list. -/
theorem fetch_transactions_status_spec_witness :
    fetch_transactions ⟨404, some [⟨-500, none, none⟩]⟩ = [] ∧
    fetch_transactions ⟨200, some [⟨-500, none, none⟩]⟩
      = [⟨-500, none, none⟩] :=
  ⟨(fetch_transactions_status_spec ⟨404, some [⟨-500, none, none⟩]⟩).1
      (by decide),
   (fetch_transactions_status_spec ⟨200, some [⟨-500, none, none⟩]⟩).2 rfl⟩

/-- C8: when the fetch returns no transactions, `main` reaches the
"no transactions" terminal state and no spreadsheet artifact is written:
the Categorizer and Report Builder are never invoked. -/
theorem empty_fetch_early_stop (resp : HttpResponse)
    (h : fetch_transactions resp = []) :
    mainRun resp = MainResult.noTransactions ∧
    writesSpreadsheet (mainRun resp) = false := by
  rw [mainRun, h]
  exact ⟨rfl, rfl⟩

/-- Witness for C8: a failed fetch (status 500) stops the pipeline. -/
theorem empty_fetch_early_stop_witness :
    mainRun ⟨500, none⟩ = MainResult.noTransactions ∧
    writesSpreadsheet (mainRun ⟨500, none⟩) = false :=
  empty_fetch_early_stop ⟨500, none⟩ rfl

/-- C9: the categorizer is a pure, deterministic function of its input:
equal transaction sequences yield bit-identical bucket contents. -/
theorem categorize_deterministic (ts1 ts2 : List Transaction)
    (h : ts1 = ts2) :
    categorize_transactions ts1 = categorize_transactions ts2 := by
  rw [h]

/-- Witness for C9 at a concrete input. -/
theorem categorize_deterministic_witness :
    categorize_transactions [⟨-500, some "Coffee Shop", some "eating_out"⟩]
      = categorize_transactions
          [⟨-500, some "Coffee Shop", some "eating_out"⟩] :=
  categorize_deterministic _ _ rfl

/-- C10: a transaction with a non-negative amount is skipped before any
bucket lookup: the loop body returns the mapping unchanged whatever the
category field holds, so only debits can reach the lookup-failure path. -/
theorem nonnegative_skips_lookup (cats : Categories) (t : Transaction)
    (h : 0 ≤ t.amount) : processTransaction cats t = some cats :=
  processTransaction_nonneg cats t
    (not_lt.mpr (div_nonneg (by exact_mod_cast h) (by norm_num)))

/-- Witness for C10: a credit with the unrecognized category `income` is
silently ignored rather than failing the lookup. -/
theorem nonnegative_skips_lookup_witness :
    processTransaction initCategories ⟨1200, some "Salary", some "income"⟩
      = some initCategories :=
  nonnegative_skips_lookup initCategories
    ⟨1200, some "Salary", some "income"⟩ (by decide)

/- ### Report-builder lemmas -/

lemma foldl_colStep :
    ∀ (bucket : List Expense) (acc : CategoryColumn),
      bucket.foldl colStep acc =
        ⟨acc.descriptions ++ bucket.map Expense.description,
         acc.amounts ++ bucket.map (fun e => Cell.num e.amount),
         acc.total + (bucket.map Expense.amount).sum⟩
  | [], acc => by simp
  | e :: bucket, acc => by
    rw [List.foldl_cons, foldl_colStep bucket (colStep acc e)]
    simp [colStep, add_assoc]

/-- C5: for every category, the Report Builder appends exactly one
synthetic subtotal entry after all of the bucket's Expense entries, with
description `"∑ " ++ name` and amount the bucket's sum formatted as
currency; the category total is the sum of the bucket's amounts. -/
theorem subtotal_row_appended (name : String) (bucket : List Expense) :
    (buildColumn name bucket).descriptions
        = bucket.map Expense.description ++ ["∑ " ++ name] ∧
    (buildColumn name bucket).amounts
        = bucket.map (fun e => Cell.num e.amount)
            ++ [Cell.str (formatCurrency ((bucket.map Expense.amount).sum))] ∧
    (buildColumn name bucket).total = (bucket.map Expense.amount).sum := by
  simp only [buildColumn, foldl_colStep]
  simp

lemma buildColumn_descriptions_length (name : String) (bucket : List Expense) :
    (buildColumn name bucket).descriptions.length = bucket.length + 1 := by
  simp [buildColumn, foldl_colStep]

lemma flatten_pairs_length {α β : Type} :
    ∀ (L : List α) (f : α → List β), (∀ a, (f a).length = 2) →
      ((L.map f).flatten).length = 2 * L.length
  | [], _, _ => by simp
  | a :: L, f, h => by
    simp [flatten_pairs_length L f h, h a]
    omega

lemma gridRow_length (cats : Categories) (i : Nat) :
    (gridRow cats i).length = 2 * cats.length := by
  have h := flatten_pairs_length (allData cats)
    (fun cd => [Cell.str (cd.descriptions.getD i ""),
      cd.amounts.getD i (Cell.str "")])
    (fun cd => rfl)
  rw [gridRow, h]
  simp [allData]

lemma allColumns_length (cats : Categories) :
    (allColumns cats).length = 2 * cats.length := by
  have h := flatten_pairs_length cats
    (fun p => [p.1, "£ " ++ p.1]) (fun p => rfl)
  rw [allColumns, h]

lemma totalRow_length (cats : Categories) (h : cats ≠ []) :
    (totalRow cats).length = 2 * cats.length := by
  have h1 : 0 < cats.length := List.length_pos.mpr h
  simp [totalRow, allColumns_length]
  omega

/-- C4: for every non-empty categorized mapping, the grid has
`maxCategoryLength + 1` rows (the `+1` being the grand-total row, which is
the final row), and every row has `2 × category_count` cells. -/
theorem grid_dimensions (cats : Categories) (g : List (List Cell))
    (hne : cats ≠ []) (hg : buildGrid cats = some g) :
    (allColumns cats).length = 2 * cats.length ∧
    g.length = maxCategoryLength cats + 1 ∧
    g.getLast? = some (totalRow cats) ∧
    ∀ row ∈ g, row.length = 2 * cats.length := by
  refine ⟨allColumns_length cats, ?_⟩
  have hlen : (allData cats).map (fun cd => cd.descriptions.length)
      = cats.map (fun p => p.2.length + 1) := by
    simp only [allData, List.map_map, Function.comp]
    simp [buildColumn_descriptions_length]
  rw [buildGrid, hlen] at hg
  cases hM : (cats.map (fun p => p.2.length + 1)).max? with
  | none =>
    rw [hM] at hg
    simp at hg
  | some M =>
    rw [hM] at hg
    simp only [Option.map_some'] at hg
    cases hg
    refine ⟨by simp [maxCategoryLength, hM], by simp, ?_⟩
    intro row hrow
    rcases List.mem_append.mp hrow with h1 | h2
    · rcases List.mem_map.mp h1 with ⟨i, _, rfl⟩
      exact gridRow_length cats i
    · rcases List.mem_singleton.mp h2 with rfl
      exact totalRow_length cats hne

/-- Witness for C4: the all-empty mapping over the fixed enumeration gives
a 2-row, 14-column grid ending in the grand-total row. -/
theorem grid_dimensions_witness :
    initCategories ≠ [] ∧
    ((allColumns initCategories).length = 2 * initCategories.length ∧
     ((buildGrid initCategories).getD []).length
        = maxCategoryLength initCategories + 1 ∧
     ((buildGrid initCategories).getD []).getLast?
        = some (totalRow initCategories) ∧
     ∀ row ∈ (buildGrid initCategories).getD [],
        row.length = 2 * initCategories.length) :=
  ⟨by decide,
   grid_dimensions initCategories ((buildGrid initCategories).getD [])
     (by decide) (by decide)⟩

/- ### Provenance of stored expenses -/

lemma string_take_full (s : String) (n : Nat) (h : s.length ≤ n) :
    s.take n = s := by
  rw [String.take_eq]
  cases s with
  | mk data =>
    simp only [String.length] at h
    simp [List.take_of_length_le h]

lemma appendTo_mem (e : Expense) :
    ∀ (cats : Categories) (key : String) (m : Categories),
      appendTo cats key e = some m →
      ∀ p ∈ m, ∀ x ∈ p.2, (∃ q ∈ cats, x ∈ q.2) ∨ x = e
  | [], key, m => by
    intro h
    simp [appendTo] at h
  | (k, v) :: rest, key, m => by
    intro h p hp x hx
    by_cases hk : k = key
    · simp only [appendTo, if_pos hk] at h
      cases h
      rcases List.mem_cons.mp hp with rfl | hp2
      · rcases List.mem_append.mp hx with hv | he
        · exact Or.inl ⟨(k, v), List.mem_cons_self _ _, hv⟩
        · exact Or.inr (List.mem_singleton.mp he)
      · exact Or.inl ⟨p, List.mem_cons_of_mem _ hp2, hx⟩
    · simp only [appendTo, if_neg hk, Option.map_eq_some'] at h
      obtain ⟨r, hr, rfl⟩ := h
      rcases List.mem_cons.mp hp with rfl | hp2
      · exact Or.inl ⟨(k, v), List.mem_cons_self _ _, hx⟩
      · rcases appendTo_mem e rest key r hr p hp2 x hx with ⟨q, hq, hxq⟩ | hxe
        · exact Or.inl ⟨q, List.mem_cons_of_mem _ hq, hxq⟩
        · exact Or.inr hxe

lemma mkExpense_description (t : Transaction) :
    (mkExpense t).description
      = (t.description.getD "No description").take 18 := by
  simp only [mkExpense]

lemma processAll_mem (P : Expense → Prop) :
    ∀ (ts : List Transaction) (cats m : Categories),
      processAll cats ts = some m →
      (∀ t ∈ ts, (t.amount : ℚ) / 100 < 0 → P (mkExpense t)) →
      (∀ p ∈ cats, ∀ x ∈ p.2, P x) →
      ∀ p ∈ m, ∀ x ∈ p.2, P x
  | [], cats, m => by
    intro h hts hcats
    simp only [processAll, Option.some_inj] at h
    subst h
    exact hcats
  | t :: ts, cats, m => by
    intro h hts hcats
    simp only [processAll, Option.bind_eq_some] at h
    obtain ⟨cats2, hp, hrest⟩ := h
    refine processAll_mem P ts cats2 m hrest
      (fun u hu => hts u (List.mem_cons_of_mem t hu)) ?_
    by_cases hneg : (t.amount : ℚ) / 100 < 0
    · rw [processTransaction, if_pos hneg] at hp
      intro p hpm x hx
      rcases appendTo_mem (mkExpense t) cats _ cats2 hp p hpm x hx with
        ⟨q, hq, hxq⟩ | rfl
      · exact hcats q hq x hxq
      · exact hts t (List.mem_cons_self t ts) hneg
    · rw [processTransaction, if_neg hneg] at hp
      cases hp
      exact hcats

/-- C6: every expense stored by the categorizer carries exactly the first
18 characters of some admitted debit's description; a description of at
most 18 characters is stored unchanged. -/
theorem expense_description_truncated (ts : List Transaction)
    (m : Categories) (h : categorize_transactions ts = some m) :
    ∀ p ∈ m, ∀ e ∈ p.2,
      ∃ t ∈ ts, (t.amount : ℚ) / 100 < 0 ∧
        e.description = (t.description.getD "No description").take 18 ∧
        ((t.description.getD "No description").length ≤ 18 →
          e.description = t.description.getD "No description") := by
  refine processAll_mem
    (fun e => ∃ t ∈ ts, (t.amount : ℚ) / 100 < 0 ∧
      e.description = (t.description.getD "No description").take 18 ∧
      ((t.description.getD "No description").length ≤ 18 →
        e.description = t.description.getD "No description"))
    ts initCategories m h ?_ ?_
  · intro t ht hneg
    refine ⟨t, ht, hneg, mkExpense_description t, fun hlen => ?_⟩
    rw [mkExpense_description t]
    exact string_take_full _ 18 hlen
  · intro p hp x hx
    rcases List.mem_map.mp hp with ⟨c, _, rfl⟩
    cases hx

set_option maxRecDepth 8192 in
/-- Witness for C6: a 26-character description is stored as exactly its
first 18 characters. -/
theorem expense_description_truncated_witness :
    ∃ t ∈ [(⟨-500, some "ABCDEFGHIJKLMNOPQRSTUVWXYZ", some "shopping"⟩ :
        Transaction)],
      (t.amount : ℚ) / 100 < 0 ∧
      ("ABCDEFGHIJKLMNOPQR" : String)
          = (t.description.getD "No description").take 18 ∧
      ((t.description.getD "No description").length ≤ 18 →
        ("ABCDEFGHIJKLMNOPQR" : String)
          = t.description.getD "No description") :=
  expense_description_truncated
    [⟨-500, some "ABCDEFGHIJKLMNOPQRSTUVWXYZ", some "shopping"⟩]
    ((categorize_transactions
      [⟨-500, some "ABCDEFGHIJKLMNOPQRSTUVWXYZ", some "shopping"⟩]).getD [])
    (by decide)
    ("Shopping", [⟨"ABCDEFGHIJKLMNOPQR", 5⟩]) (by decide)
    ⟨"ABCDEFGHIJKLMNOPQR", 5⟩ (by decide)

end Monzo
